import Mathlib

/-
Verification of the BettingHub signal engine
(src/supabase/functions/server/signals.tsx and the Hono server routes).

JavaScript numbers are modelled as rationals, with decimal literals taken
exactly (0.3 becomes 3/10); Math.floor and Math.round are modelled as exact
integer floor and round-half-up on rationals.  Math.random() draws are made
explicit: every function that samples randomness receives a record of the
raw draws, each constrained to the unit interval [0, 1).  Date.now() is an
explicit integer parameter.  The Supabase key-value store is modelled as an
association list from string keys to typed values; kv.set overwrites the
binding of a key, kv.getByPrefix filters bindings whose key has the given
leading characters.  JSON.stringify/JSON.parse round trips are modelled by
storing typed values directly.
-/

namespace BettingHub

/-- Floor of a rational number, written so that it reduces in the kernel
(div on integers is Euclidean division, which agrees with flooring because
the denominator is positive). -/
def ratFloor (q : ℚ) : ℤ := q.num / (q.den : ℤ)

/-- JS Math.round: round half toward positive infinity. -/
def jsRound (q : ℚ) : ℤ := ratFloor (q + 1/2)

/-- A raw Math.random() draw lies in the unit interval [0, 1). -/
def unitIv (q : ℚ) : Prop := 0 ≤ q ∧ q < 1

instance (q : ℚ) : Decidable (unitIv q) := inferInstanceAs (Decidable (_ ∧ _))

/-- JS idiom `arr[Math.floor(Math.random() * arr.length)]`: pick the entry
whose index is the floor of the draw scaled by the length. -/
def listPick (l : List String) (q : ℚ) : String :=
  l.getD (ratFloor (q * l.length)).toNat ""

/-- The three-level labels used for the confidence bucket and the risk label
(source string literals "low" | "medium" | "high"). -/
inductive Level where
  | low
  | medium
  | high
deriving DecidableEq, Inhabited

/-- The four-level market volatility label of a Signal
(source string literals "stable" | "normal" | "high" | "extreme"). -/
inductive VolLabel where
  | stable
  | normal
  | high
  | extreme
deriving DecidableEq, Inhabited

/-- The bestLine field of a Signal. -/
structure BestLine where
  book : String
  odds : ℤ
  price : String
deriving DecidableEq, Inhabited

/-- The consensus field of a Signal. -/
structure Consensus where
  implied : ℚ
  odds : ℤ
deriving DecidableEq, Inhabited

/-- The oddsMovement field of a Signal; the source fields are named
from / to, which are reserved words in Lean, hence fromOdds / toOdds. -/
structure OddsMovement where
  fromOdds : ℤ
  toOdds : ℤ
  timeWindow : String
deriving DecidableEq, Inhabited

/-- The Signal record of signals.tsx. -/
structure Signal where
  id : String
  eventId : String
  eventName : String
  sport : String
  marketType : String
  triggeredAt : ℤ
  signalScore : ℤ
  edge : ℚ
  confidence : Level
  bestLine : BestLine
  consensus : Consensus
  aiProbability : ℚ
  trigger : String
  explanation : String
  whatChanged : String
  riskLabel : Level
  oddsMovement : OddsMovement
  volatility : VolLabel
  timeToStart : ℤ
deriving DecidableEq, Inhabited

/-- The MarketState record of signals.tsx. -/
structure MarketState where
  marketId : String
  eventId : String
  eventName : String
  sport : String
  marketType : String
  lastOdds : List (String × ℤ)
  impliedProbability : ℚ
  volatility : ℚ
  momentum : ℚ
  lastUpdate : ℤ
  pollingCadence : ℤ
deriving DecidableEq, Inhabited

/-- The raw Math.random() draws consumed by one call of generateSignal,
in source order, plus the random id suffix
(Math.random().toString(36).substr(2, 9)), which is kept opaque. -/
structure SigRand where
  edgeQ : ℚ
  scoreQ : ℚ
  bookQ : ℚ
  oddsQ : ℚ
  aiQ : ℚ
  consQ : ℚ
  trigQ : ℚ
  explQ : ℚ
  timeQ : ℚ
  idSuffix : String
deriving DecidableEq, Inhabited

/-- Every numeric draw of a SigRand lies in [0, 1). -/
def SigRand.Valid (r : SigRand) : Prop :=
  unitIv r.edgeQ ∧ unitIv r.scoreQ ∧ unitIv r.bookQ ∧ unitIv r.oddsQ ∧
    unitIv r.aiQ ∧ unitIv r.consQ ∧ unitIv r.trigQ ∧ unitIv r.explQ ∧
    unitIv r.timeQ

instance (r : SigRand) : Decidable r.Valid :=
  inferInstanceAs (Decidable (_ ∧ _ ∧ _ ∧ _ ∧ _ ∧ _ ∧ _ ∧ _ ∧ _))

/-- The fixed list of sportsbooks in generateSignal. -/
def books : List String :=
  ["DraftKings", "FanDuel", "BetMGM", "Caesars", "PointsBet"]

/-- The fixed trigger texts in generateSignal. -/
def triggers : List String :=
  ["Odds movement over 15 points in 5 minutes",
   "AI probability divergence from market consensus exceeds 8%",
   "Cross-book arbitrage opportunity detected",
   "Sharp money indicators across 3+ books",
   "Historical pattern match with 73% win rate"]

/-- The fixed explanation texts in generateSignal. -/
def explanations : List String :=
  ["Market overreaction to public sentiment. Our AI model shows the line has moved too far.",
   "Early sharp action from known professional groups. This typically precedes additional movement.",
   "Weather conditions favor the under. Public is heavily on the over, creating value.",
   "Injury news not fully priced in by the market. Model adjusts for lineup impact.",
   "Historical matchup data suggests current line is inefficient by ~6%."]

/-- The Signal record built by generateSignal once the volatility gate has
passed, translated field by field from signals.tsx lines 72-138. -/
def sigOf (now : ℤ) (m : MarketState) (r : SigRand) : Signal :=
  let timeSinceUpdate : ℤ := now - m.lastUpdate
  let edge : ℚ := r.edgeQ * 8 + 2
  let signalScore : ℤ :=
    min 100 (jsRound (m.volatility * 40 + edge * 5 + r.scoreQ * 20))
  let bestOdds : ℤ := -110 + ratFloor (r.oddsQ * 40)
  let consensus : ℚ := 1/2 + (r.consQ - 1/2) * (2/10)
  { id := "signal-" ++ toString now ++ "-" ++ r.idSuffix
    eventId := m.eventId
    eventName := m.eventName
    sport := m.sport
    marketType := m.marketType
    triggeredAt := now
    signalScore := signalScore
    edge := edge
    confidence :=
      if 75 < signalScore then .high else if 55 < signalScore then .medium else .low
    bestLine :=
      { book := listPick books r.bookQ
        odds := bestOdds
        price := if 0 < bestOdds then "+" ++ toString bestOdds else toString bestOdds }
    consensus := { implied := consensus, odds := jsRound (-110 + (consensus - 1/2) * 100) }
    aiProbability := 1/2 + (r.aiQ - 1/2) * (3/10)
    trigger := listPick triggers r.trigQ
    explanation := listPick explanations r.explQ
    whatChanged :=
      "Line moved from " ++ toString (bestOdds - 15) ++ " to " ++ toString bestOdds ++
        " across majority of books in last " ++
        toString (ratFloor ((timeSinceUpdate : ℚ) / 60000)) ++ " minutes"
    riskLabel :=
      if 7/10 < m.volatility then .high else if 4/10 < m.volatility then .medium else .low
    oddsMovement := { fromOdds := bestOdds - 15, toOdds := bestOdds, timeWindow := "5m" }
    volatility :=
      if 7/10 < m.volatility then .extreme else if 1/2 < m.volatility then .high else .normal
    timeToStart := ratFloor (r.timeQ * 180) + 30 }

/-- generateSignal of signals.tsx: markets below the volatility gate 0.3
produce no signal, all others produce the record above. -/
def generateSignal (now : ℤ) (m : MarketState) (r : SigRand) : Option Signal :=
  if m.volatility < 3/10 then none else some (sigOf now m r)

/-- The argument record of computeSignalScore. -/
structure ScoreParams where
  edgeSize : ℚ
  speed : ℚ
  persistence : ℚ
  marketStability : ℚ
  historicalPerformance : ℚ
deriving DecidableEq, Inhabited

/-- computeSignalScore of signals.tsx: the weighted sum, rounded, then
clamped as Math.min(100, Math.max(0, round)). -/
def computeSignalScore (p : ScoreParams) : ℤ :=
  let score : ℚ :=
    p.edgeSize * (3/10) + p.speed * (2/10) + p.persistence * (2/10) +
      p.marketStability * (1/10) + p.historicalPerformance * (2/10)
  min 100 (max 0 (jsRound score))

/-- Modelled from the spec wording of claim C1: the same fixed linear
weighted sum, rounded, then clamped into the interval [0, 100]. -/
def signalScoreSpec (p : ScoreParams) : ℤ :=
  max 0 (min 100 (jsRound
    (p.edgeSize * (3/10) + p.speed * (2/10) + p.persistence * (2/10) +
      p.marketStability * (1/10) + p.historicalPerformance * (2/10))))

/-- A value stored in the key-value store: the JSON blobs of the server are
either serialized MarketStates, serialized Signals, or other records such as
user alert lists, kept opaque. -/
inductive Val where
  | market (m : MarketState)
  | signal (s : Signal)
  | raw (text : String)
deriving DecidableEq, Inhabited

/-- The key-value store: an association list from keys to values. -/
abbrev Store := List (String × Val)

/-- kv.set: drop any existing binding of the key and bind it to the new
value.  The position of the binding in the list is irrelevant to lookups;
only the enumeration order of kv.getByPrefix depends on it, which the
backing store does not specify. -/
def kvSet (k : String) (v : Val) (st : Store) : Store :=
  st.filter (fun p => p.1 != k) ++ [(k, v)]

/-- kv.get: the value bound to the key, if any. -/
def kvGet (k : String) (st : Store) : Option Val :=
  (st.find? (fun p => p.1 == k)).map Prod.snd

/-- kv.getByPrefix: all bindings whose key begins with the given string. -/
def kvPrefixScan (pre : String) (st : Store) : Store :=
  st.filter (fun p => p.1.startsWith pre)

/-- JSON.parse of a blob read from a market key. -/
def Val.asMarket : Val → Option MarketState
  | .market m => some m
  | _ => none

/-- JSON.parse of a blob read from a signal key. -/
def Val.asSignal : Val → Option Signal
  | .signal s => some s
  | _ => none

/-- The fixed sports list of initializeMockMarkets. -/
def sports : List String := ["NFL", "NBA", "MLB", "NHL", "NCAAF", "NCAAB"]

/-- The fixed market type list of initializeMockMarkets. -/
def marketTypes : List String := ["Moneyline", "Spread", "Total", "Player Props"]

/-- The team table of initializeMockMarkets, read as a function from the
sport key; the lookup is only ever applied to the six sports above. -/
def teamsFor (sport : String) : List String :=
  if sport = "NFL" then ["Chiefs", "Bills", "49ers", "Cowboys", "Eagles", "Ravens"]
  else if sport = "NBA" then ["Lakers", "Celtics", "Warriors", "Nets", "Bucks", "Nuggets"]
  else if sport = "MLB" then ["Yankees", "Dodgers", "Astros", "Braves", "Red Sox", "Mets"]
  else if sport = "NHL" then ["Maple Leafs", "Lightning", "Avalanche", "Rangers", "Bruins", "Oilers"]
  else if sport = "NCAAF" then ["Alabama", "Georgia", "Ohio State", "Michigan", "Texas", "USC"]
  else if sport = "NCAAB" then ["Duke", "Kansas", "UNC", "Kentucky", "Gonzaga", "Villanova"]
  else []

/-- The raw Math.random() draws consumed for one market of
initializeMockMarkets: one draw per sampled field, plus the finite stream of
draws the team2 retry loop may consume (the loop reruns while team2 equals
team1; a run of the loop consumes one draw per iteration). -/
structure MarketRand where
  sportQ : ℚ
  team1Q : ℚ
  team2Q : ℚ
  team2Retries : List ℚ
  mtypeQ : ℚ
  impliedQ : ℚ
  volQ : ℚ
  momQ : ℚ
  updQ : ℚ
deriving DecidableEq, Inhabited

/-- The while loop of initializeMockMarkets lines 162-164: while the current
team2 pick equals team1, redraw.  The loop is cut off when the supplied
draws run out (the source loop terminates with probability one). -/
def retryPick (ts : List String) (t1 : String) : String → List ℚ → String
  | cur, [] => cur
  | cur, q :: qs => if cur = t1 then retryPick ts t1 (listPick ts q) qs else cur

/-- One MarketState built by iteration i of initializeMockMarkets,
translated field by field from signals.tsx lines 157-182. -/
def mkMarket (now : ℤ) (i : ℕ) (r : MarketRand) : MarketState :=
  let sport := listPick sports r.sportQ
  let sportTeams := teamsFor sport
  let team1 := listPick sportTeams r.team1Q
  let team2 := retryPick sportTeams team1 (listPick sportTeams r.team2Q) r.team2Retries
  { marketId := "market-" ++ toString i
    eventId := "event-" ++ toString i
    eventName := team1 ++ " @ " ++ team2
    sport := sport
    marketType := listPick marketTypes r.mtypeQ
    lastOdds := [("DraftKings", -110), ("FanDuel", -108), ("BetMGM", -112)]
    impliedProbability := 1/2 + (r.impliedQ - 1/2) * (2/10)
    volatility := r.volQ
    momentum := r.momQ * 2 - 1
    lastUpdate := now - ratFloor (r.updQ * 300000)
    pollingCadence := 10000 }

/-- The 25 MarketStates built by one run of initializeMockMarkets, indexed
by the loop counter; the draws of iteration i are rs i. -/
def mkMarkets (now : ℤ) (rs : ℕ → MarketRand) : List MarketState :=
  (List.range 25).map (fun i => mkMarket now i (rs i))

/-- initializeMockMarkets of signals.tsx: build the 25 markets and store
each one under the key market:marketId.  The source interleaves building
and storing; the two are separated here, which yields the same list and
the same store because building a market never reads the store. -/
def initMockMarkets (now : ℤ) (rs : ℕ → MarketRand) (st : Store) :
    List MarketState × Store :=
  (mkMarkets now rs,
   (mkMarkets now rs).foldl
     (fun acc m => kvSet ("market:" ++ m.marketId) (Val.market m) acc) st)

/-- The markets read back by generateActiveSignals: every binding under the
market: key space, parsed. -/
def marketsOf (st : Store) : List MarketState :=
  (kvPrefixScan "market:" st).filterMap (fun p => p.2.asMarket)

/-- The markets sorted by descending volatility, as by the JS comparator
(a, b) => b.volatility - a.volatility (a stable sort, as in V8). -/
def sortedMarketsOf (st : Store) : List MarketState :=
  (marketsOf st).mergeSort (fun a b => decide (b.volatility ≤ a.volatility))

/-- The signals produced by one run of generateActiveSignals: one call of
generateSignal per market among the first min(count, length) sorted
markets, dropping the null results; the draws of iteration i are ss i. -/
def newSignals (count : ℕ) (now : ℤ) (ss : ℕ → SigRand) (st : Store) :
    List Signal :=
  ((sortedMarketsOf st).take count).enum.filterMap
    (fun p => generateSignal now p.2 (ss p.1))

/-- generateActiveSignals of signals.tsx: read the markets, sort them by
volatility, generate a signal for each of the first min(count, length)
markets, and store each generated signal under the key signal:id.  The
source interleaves generation and storing; the two are separated here,
which yields the same list and the same store because generateSignal never
reads the store. -/
def generateActiveSignals (count : ℕ) (now : ℤ) (ss : ℕ → SigRand)
    (st : Store) : List Signal × Store :=
  (newSignals count now ss st,
   (newSignals count now ss st).foldl
     (fun acc s => kvSet ("signal:" ++ s.id) (Val.signal s) acc) st)

/-- The POST init route of the server: initializeMockMarkets followed by
generateActiveSignals(15), returning the markets, the new signals and the
resulting store. -/
def initHandler (now : ℤ) (rs : ℕ → MarketRand) (ss : ℕ → SigRand)
    (st : Store) : List MarketState × List Signal × Store :=
  ((initMockMarkets now rs st).1,
   (generateActiveSignals 15 now ss (initMockMarkets now rs st).2).1,
   (generateActiveSignals 15 now ss (initMockMarkets now rs st).2).2)

/-- The signals read back by the GET signals route: every binding under the
signal: key space, parsed. -/
def storedSignals (st : Store) : List Signal :=
  (kvPrefixScan "signal:" st).filterMap (fun p => p.2.asSignal)

/-- The JS comparator of the GET signals route, line 305-310, as the
relation: a may precede b.  Scores compare descending; equal scores
compare by descending triggeredAt. -/
def signalLe (a b : Signal) : Bool :=
  if a.signalScore = b.signalScore then decide (b.triggeredAt ≤ a.triggeredAt)
  else decide (b.signalScore < a.signalScore)

/-- JS truthiness of an optional query string: undefined and the empty
string are falsy. -/
def strTruthy : Option String → Option String
  | some "" => none
  | o => o

/-- The GET signals route of the server: read all stored signals, apply the
sport, marketType and minConfidence filters when the corresponding query
parameter is truthy, and sort by the comparator above. -/
def getSignalsHandler (sport marketType minConfidence : Option String)
    (st : Store) : List Signal :=
  let l0 : List Signal := storedSignals st
  let l1 : List Signal := match strTruthy sport with
    | some sp => l0.filter (fun s => s.sport == sp)
    | none => l0
  let l2 : List Signal := match strTruthy marketType with
    | some mt => l1.filter (fun s => s.marketType == mt)
    | none => l1
  let l3 : List Signal := match strTruthy minConfidence with
    | some mc =>
        let minScore : ℤ := if mc = "high" then 75 else if mc = "medium" then 55 else 0
        l2.filter (fun s => decide (minScore ≤ s.signalScore))
    | none => l2
  l3.mergeSort signalLe

/-
Concrete fixtures used by the witness and counterexample theorems.
-/

/-- A concrete market state with volatility 1/2. -/
def m0 : MarketState :=
  { marketId := "market-0"
    eventId := "event-0"
    eventName := "Chiefs @ Bills"
    sport := "NFL"
    marketType := "Spread"
    lastOdds := [("DraftKings", -110), ("FanDuel", -108), ("BetMGM", -112)]
    impliedProbability := 1/2
    volatility := 1/2
    momentum := 0
    lastUpdate := 0
    pollingCadence := 10000 }

/-- A concrete draw record with every numeric draw equal to 1/2. -/
def r0 : SigRand :=
  { edgeQ := 1/2, scoreQ := 1/2, bookQ := 1/2, oddsQ := 1/2, aiQ := 1/2,
    consQ := 1/2, trigQ := 1/2, explQ := 1/2, timeQ := 1/2,
    idSuffix := "abcdefghi" }

/-- The signal generated from the fixtures above at time 0. -/
def s0 : Signal := (generateSignal 0 m0 r0).getD default

/-- A concrete score parameter record. -/
def p0 : ScoreParams :=
  { edgeSize := 80, speed := 70, persistence := 60, marketStability := 50,
    historicalPerformance := 90 }

/-- A second record with the same field values as p0. -/
def p0' : ScoreParams :=
  { edgeSize := 80, speed := 70, persistence := 60, marketStability := 50,
    historicalPerformance := 90 }

/-- A concrete per-market draw record; the initial team2 pick differs from
team1, so the retry loop is not entered. -/
def mr0 : MarketRand :=
  { sportQ := 1/2, team1Q := 1/2, team2Q := 5/6, team2Retries := [],
    mtypeQ := 1/2, impliedQ := 1/2, volQ := 1/2, momQ := 1/2, updQ := 1/2 }

/-- A constant market draw oracle. -/
def rs0 : ℕ → MarketRand := fun _ => mr0

/-- A signal draw oracle with a distinct id suffix per iteration. -/
def sr0 : ℕ → SigRand := fun i => { r0 with idSuffix := "new" ++ toString i }

/-- A stale signal record, generated at time 0; the init call under test
runs at time 1, so all freshly written signal keys differ from its key. -/
def staleSig : Signal := s0

/-- The store key of the stale signal. -/
def staleKey : String := "signal:" ++ staleSig.id

/-- A store holding the stale signal and an unrelated user record before
the init call. -/
def st0 : Store :=
  [(staleKey, Val.signal staleSig), ("user:u1:alerts", Val.raw "[]")]

/-- A concrete signal whose score is exactly 75. -/
def sig75 : Signal :=
  { (default : Signal) with id := "sig75", signalScore := 75, triggeredAt := 5 }

/-- A store holding only the score-75 signal. -/
def st75 : Store := [("signal:" ++ sig75.id, Val.signal sig75)]

/-- A store holding one market, used to exercise the frame condition of
generateActiveSignals. -/
def st1 : Store := [("market:market-0", Val.market (mkMarket 0 0 mr0))]

/-
Theorems.
-/

/-- The executable floor agrees with the mathematical floor. -/
theorem ratFloor_eq_floor (q : ℚ) : ratFloor q = ⌊q⌋ := Rat.floor_def.symm

/-- A pick from a nonempty list with a draw in [0, 1) is an element of the
list. -/
theorem listPick_mem (l : List String) (q : ℚ) (h : unitIv q) (hl : l ≠ []) :
    listPick l q ∈ l := by
  obtain ⟨h0, h1⟩ := h
  have hlpos : 0 < l.length := List.length_pos.mpr hl
  have hlen : (0:ℚ) < (l.length : ℚ) := by exact_mod_cast hlpos
  have hup : q * (l.length : ℚ) < (l.length : ℚ) := by nlinarith
  have hlo : (0:ℚ) ≤ q * (l.length : ℚ) := mul_nonneg h0 (le_of_lt hlen)
  have hfl : ⌊q * (l.length : ℚ)⌋ < (l.length : ℤ) :=
    Int.floor_lt.mpr (by exact_mod_cast hup)
  have hfl0 : 0 ≤ ⌊q * (l.length : ℚ)⌋ := Int.floor_nonneg.mpr hlo
  have hidx : (ratFloor (q * (l.length : ℚ))).toNat < l.length := by
    rw [ratFloor_eq_floor]
    omega
  unfold listPick
  rw [List.getD_eq_getElem l "" hidx]
  exact List.getElem_mem hidx

/-- Inversion for generateSignal: a returned signal is exactly sigOf and
the volatility gate was passed. -/
theorem generateSignal_eq_some {now : ℤ} {m : MarketState} {r : SigRand}
    {s : Signal} (h : generateSignal now m r = some s) :
    ¬ m.volatility < 3/10 ∧ s = sigOf now m r := by
  unfold generateSignal at h
  split at h
  · exact absurd h (by simp)
  · exact ⟨by assumption, (Option.some.inj h).symm⟩

/-- Claim C1: computeSignalScore is exactly the fixed linear weighted sum
edgeSize*0.3 + speed*0.2 + persistence*0.2 + marketStability*0.1 +
historicalPerformance*0.2, rounded and clamped into [0, 100]. -/
theorem computeSignalScore_matches_spec (p : ScoreParams) :
    computeSignalScore p = signalScoreSpec p := by
  simp only [computeSignalScore, signalScoreSpec]
  omega

/-- Claim C2: the confidence of every signal returned by generateSignal is
derived solely from its signalScore by the fixed thresholds: high above 75,
medium above 55, low otherwise. -/
theorem confidence_from_score_thresholds (now : ℤ) (m : MarketState)
    (r : SigRand) (s : Signal) (h : generateSignal now m r = some s) :
    s.confidence = (if 75 < s.signalScore then Level.high
      else if 55 < s.signalScore then Level.medium else Level.low) := by
  obtain ⟨-, rfl⟩ := generateSignal_eq_some h
  rfl

/-- Witness for claim C2 at the concrete fixtures. -/
theorem confidence_from_score_thresholds_witness :
    generateSignal 0 m0 r0 = some s0 ∧
      s0.confidence = (if 75 < s0.signalScore then Level.high
        else if 55 < s0.signalScore then Level.medium else Level.low) := by
  have h0 : generateSignal 0 m0 r0 = some s0 := by with_unfolding_all decide
  exact ⟨h0, confidence_from_score_thresholds 0 m0 r0 s0 h0⟩

/-- Claim C3: generateSignal returns null exactly when the market
volatility is below the 0.3 gate, and a signal otherwise. -/
theorem generateSignal_none_iff_low_volatility (now : ℤ) (m : MarketState)
    (r : SigRand) :
    generateSignal now m r = none ↔ m.volatility < 3/10 := by
  unfold generateSignal
  split <;> simp_all

/-- Claim C4: every signal returned by generateSignal has a score in
[0, 100] (the lower bound coming from the volatility gate and the minimum
edge), and computeSignalScore always lands in [0, 100]. -/
theorem signalScore_within_range :
    (∀ (now : ℤ) (m : MarketState) (r : SigRand) (s : Signal), r.Valid →
        generateSignal now m r = some s →
        0 ≤ s.signalScore ∧ s.signalScore ≤ 100) ∧
    (∀ p : ScoreParams,
        0 ≤ computeSignalScore p ∧ computeSignalScore p ≤ 100) := by
  constructor
  · intro now m r s hv h
    obtain ⟨hg, rfl⟩ := generateSignal_eq_some h
    have hvol : (3:ℚ)/10 ≤ m.volatility := not_lt.mp hg
    obtain ⟨⟨he0, -⟩, ⟨hs0, -⟩, -⟩ := hv
    have hs : (sigOf now m r).signalScore
        = min 100 (jsRound (m.volatility * 40 + (r.edgeQ * 8 + 2) * 5 + r.scoreQ * 20)) := rfl
    rw [hs]
    have hjr : 0 ≤ jsRound (m.volatility * 40 + (r.edgeQ * 8 + 2) * 5 + r.scoreQ * 20) := by
      rw [jsRound, ratFloor_eq_floor]
      apply Int.floor_nonneg.mpr
      nlinarith
    omega
  · intro p
    simp only [computeSignalScore]
    omega

/-- Witness for claim C4 at the concrete fixtures. -/
theorem signalScore_within_range_witness :
    (0 ≤ s0.signalScore ∧ s0.signalScore ≤ 100) ∧
      (0 ≤ computeSignalScore p0 ∧ computeSignalScore p0 ≤ 100) := by
  have h0 : generateSignal 0 m0 r0 = some s0 := by with_unfolding_all decide
  have hv : r0.Valid := by with_unfolding_all decide
  exact ⟨signalScore_within_range.1 0 m0 r0 s0 hv h0, signalScore_within_range.2 p0⟩

/-- Claim C7: computeSignalScore is a pure function of its five input
fields; calls on records with equal fields return equal scores. -/
theorem computeSignalScore_deterministic (p q : ScoreParams)
    (h1 : p.edgeSize = q.edgeSize) (h2 : p.speed = q.speed)
    (h3 : p.persistence = q.persistence)
    (h4 : p.marketStability = q.marketStability)
    (h5 : p.historicalPerformance = q.historicalPerformance) :
    computeSignalScore p = computeSignalScore q := by
  cases p
  cases q
  simp only at h1 h2 h3 h4 h5
  subst h1 h2 h3 h4 h5
  rfl

/-- Witness for claim C7 at the concrete fixtures. -/
theorem computeSignalScore_deterministic_witness :
    computeSignalScore p0 = computeSignalScore p0' :=
  computeSignalScore_deterministic p0 p0' rfl rfl rfl rfl rfl

/-- Claim C8: the trigger and explanation of every generated signal are
drawn from the fixed five-element lists. -/
theorem signal_texts_from_fixed_lists (now : ℤ) (m : MarketState)
    (r : SigRand) (s : Signal) (hv : r.Valid)
    (h : generateSignal now m r = some s) :
    s.trigger ∈ triggers ∧ s.explanation ∈ explanations := by
  obtain ⟨-, rfl⟩ := generateSignal_eq_some h
  obtain ⟨-, -, -, -, -, -, h7, h8, -⟩ := hv
  constructor
  · show listPick triggers r.trigQ ∈ triggers
    exact listPick_mem _ _ h7 (by simp [triggers])
  · show listPick explanations r.explQ ∈ explanations
    exact listPick_mem _ _ h8 (by simp [explanations])

/-- Witness for claim C8 at the concrete fixtures. -/
theorem signal_texts_from_fixed_lists_witness :
    s0.trigger ∈ triggers ∧ s0.explanation ∈ explanations := by
  have h0 : generateSignal 0 m0 r0 = some s0 := by with_unfolding_all decide
  have hv : r0.Valid := by with_unfolding_all decide
  exact signal_texts_from_fixed_lists 0 m0 r0 s0 hv h0

/-- Looking up the key just written returns the written value. -/
theorem kvGet_kvSet_self (k : String) (v : Val) (st : Store) :
    kvGet k (kvSet k v st) = some v := by
  unfold kvGet kvSet
  rw [List.find?_append]
  have hnone : (st.filter (fun p => p.1 != k)).find? (fun p => p.1 == k) = none := by
    rw [List.find?_eq_none]
    intro p hp
    have h2 := (List.mem_filter.mp hp).2
    simp only [bne_iff_ne, ne_eq] at h2
    simp only [beq_iff_eq]
    exact h2
  rw [hnone]
  simp [List.find?]

/-- Writing one key leaves the lookup of every other key unchanged. -/
theorem kvGet_kvSet_ne {k k' : String} (h : k ≠ k') (v : Val) (st : Store) :
    kvGet k (kvSet k' v st) = kvGet k st := by
  have hk'k : (k' == k) = false := beq_eq_false_iff_ne.mpr (Ne.symm h)
  unfold kvGet kvSet
  rw [List.find?_append]
  have hlast : List.find? (fun p => p.1 == k) [(k', v)] = none := by
    simp [List.find?, hk'k]
  rw [hlast]
  have hfe : (st.filter (fun p => p.1 != k')).find? (fun p => p.1 == k)
      = st.find? (fun p => p.1 == k) := by
    induction st with
    | nil => rfl
    | cons a st ih =>
      by_cases ha : a.1 = k'
      · simp [List.filter_cons, ha, List.find?_cons, hk'k, ih]
      · by_cases hak : a.1 = k
        · simp [List.filter_cons, ha, List.find?_cons, hak, h, ih]
        · simp [List.filter_cons, ha, List.find?_cons, hak, h, ih]
  rw [hfe]
  cases st.find? (fun p => p.1 == k) <;> simp

/-- A fold of writes whose keys all differ from k leaves the lookup of k
unchanged. -/
theorem kvGet_foldl_preserve {β : Type} (key : β → String) (val : β → Val) :
    ∀ (l : List β) (st : Store) (k : String), (∀ x ∈ l, k ≠ key x) →
      kvGet k (l.foldl (fun acc x => kvSet (key x) (val x) acc) st) = kvGet k st := by
  intro l
  induction l with
  | nil => intro st k _; rfl
  | cons a l ih =>
    intro st k h
    rw [List.foldl_cons]
    rw [ih _ _ (fun x hx => h x (List.mem_cons_of_mem a hx))]
    exact kvGet_kvSet_ne (h a (List.mem_cons_self a l)) _ _

/-- After a fold of writes with pairwise distinct keys, the lookup of the
key of any written element returns its value. -/
theorem kvGet_foldl_write {β : Type} (key : β → String) (val : β → Val) :
    ∀ (l : List β) (st : Store) (x : β), (l.map key).Nodup → x ∈ l →
      kvGet (key x) (l.foldl (fun acc y => kvSet (key y) (val y) acc) st)
        = some (val x) := by
  intro l
  induction l with
  | nil => intro st x _ hx; cases hx
  | cons a l ih =>
    intro st x hnd hx
    rw [List.map_cons, List.nodup_cons] at hnd
    rw [List.foldl_cons]
    rcases List.mem_cons.mp hx with rfl | hx'
    · have hni : ∀ y ∈ l, key x ≠ key y := by
        intro y hy he
        exact hnd.1 (he ▸ List.mem_map_of_mem key hy)
      rw [kvGet_foldl_preserve key val l _ _ hni]
      exact kvGet_kvSet_self _ _ _
    · exact ih _ _ hnd.2 hx'

/-- The keys written by one run of initializeMockMarkets are the 25
strings market:market-0 .. market:market-24, all distinct. -/
theorem marketKeys_nodup (now : ℤ) (rs : ℕ → MarketRand) :
    ((mkMarkets now rs).map (fun m => "market:" ++ m.marketId)).Nodup := by
  have he : (mkMarkets now rs).map (fun m => "market:" ++ m.marketId)
      = (List.range 25).map (fun i => "market:market-" ++ toString i) := by
    unfold mkMarkets
    rw [List.map_map]
    apply List.map_congr_left
    intro i _
    show "market:" ++ ("market-" ++ toString i) = "market:market-" ++ toString i
    rw [← String.append_assoc]
    rfl
  rw [he]
  decide

/-- A key in the market key space never collides with a signal key. -/
theorem market_key_ne_signal_key (x y : String) :
    "market:market-" ++ x ≠ "signal:" ++ y := by
  intro h
  have h2 := congrArg (fun s : String => s.data.head?) h
  simp only [String.data_append] at h2
  simp only [List.cons_append, List.head?_cons, Option.some.injEq] at h2
  exact absurd h2 (by decide)

/-- Claim C5, amended: the init route rewrites all 25 market keys
market:market-0 .. market:market-24 with freshly generated MarketStates and
writes the newly generated signals under their own keys, but it never
deletes or overwrites any other binding: a record whose key is neither a
market key nor the key of one of the new signals survives unchanged; in
particular stale signal records survive. -/
theorem init_rewrites_markets_preserves_others (now : ℤ)
    (rs : ℕ → MarketRand) (ss : ℕ → SigRand) (st : Store) :
    (∀ i : Fin 25,
        kvGet ("market:market-" ++ toString i.val) (initHandler now rs ss st).2.2
          = some (Val.market (mkMarket now i.val (rs i.val)))) ∧
    (∀ k v, kvGet k st = some v →
        (∀ i : Fin 25, k ≠ "market:market-" ++ toString i.val) →
        (∀ s ∈ (initHandler now rs ss st).2.1, k ≠ "signal:" ++ s.id) →
        kvGet k (initHandler now rs ss st).2.2 = some v) := by
  constructor
  · intro i
    have hkey : ∀ s_ ∈ newSignals 15 now ss ((initMockMarkets now rs st).2),
        ("market:market-" ++ toString i.val) ≠ "signal:" ++ s_.id :=
      fun s_ _ => market_key_ne_signal_key _ _
    have step2 : kvGet ("market:market-" ++ toString i.val)
          ((initHandler now rs ss st).2.2)
        = kvGet ("market:market-" ++ toString i.val)
          ((initMockMarkets now rs st).2) :=
      kvGet_foldl_preserve (fun s_ => "signal:" ++ s_.id)
        (fun s_ => Val.signal s_) _ _ _ hkey
    rw [step2]
    have hx : mkMarket now i.val (rs i.val) ∈ mkMarkets now rs := by
      unfold mkMarkets
      exact List.mem_map_of_mem _ (List.mem_range.mpr i.isLt)
    have hw := kvGet_foldl_write (fun m => "market:" ++ m.marketId)
      (fun m => Val.market m) (mkMarkets now rs) st
      (mkMarket now i.val (rs i.val)) (marketKeys_nodup now rs) hx
    have hkeq : "market:" ++ (mkMarket now i.val (rs i.val)).marketId
        = "market:market-" ++ toString i.val := by
      show "market:" ++ ("market-" ++ toString i.val)
          = "market:market-" ++ toString i.val
      rw [← String.append_assoc]
      rfl
    have hw' : kvGet ("market:" ++ (mkMarket now i.val (rs i.val)).marketId)
        ((initMockMarkets now rs st).2)
        = some (Val.market (mkMarket now i.val (rs i.val))) := hw
    rw [hkeq] at hw'
    exact hw'
  · intro k v hkv hmk hsk
    have h21 : (initHandler now rs ss st).2.1
        = newSignals 15 now ss ((initMockMarkets now rs st).2) := rfl
    rw [h21] at hsk
    have h22 : (initHandler now rs ss st).2.2
        = (newSignals 15 now ss ((initMockMarkets now rs st).2)).foldl
            (fun acc s_ => kvSet ("signal:" ++ s_.id) (Val.signal s_) acc)
            ((initMockMarkets now rs st).2) := rfl
    rw [h22]
    rw [kvGet_foldl_preserve (fun s_ => "signal:" ++ s_.id)
      (fun s_ => Val.signal s_) _ _ _ hsk]
    have step1 : kvGet k ((initMockMarkets now rs st).2) = kvGet k st := by
      apply kvGet_foldl_preserve (fun m => "market:" ++ m.marketId)
        (fun m => Val.market m) (mkMarkets now rs) st k
      intro m hm
      unfold mkMarkets at hm
      obtain ⟨i, hi, rfl⟩ := List.mem_map.mp hm
      have hi25 : i < 25 := List.mem_range.mp hi
      intro he
      apply hmk ⟨i, hi25⟩
      rw [he]
      show "market:" ++ ("market-" ++ toString i) = "market:market-" ++ toString i
      rw [← String.append_assoc]
      rfl
    rw [step1]
    exact hkv

set_option maxHeartbeats 4000000 in
set_option maxRecDepth 8000 in
/-- Witness for the amended claim C5 at the concrete fixtures: market key 0
holds the freshly generated market, and the user record survives. -/
theorem init_rewrites_markets_preserves_others_witness :
    kvGet ("market:market-" ++ toString (0:ℕ)) (initHandler 1 rs0 sr0 st0).2.2
        = some (Val.market (mkMarket 1 0 (rs0 0))) ∧
      kvGet "user:u1:alerts" (initHandler 1 rs0 sr0 st0).2.2
        = some (Val.raw "[]") := by
  refine ⟨(init_rewrites_markets_preserves_others 1 rs0 sr0 st0).1 ⟨0, by decide⟩,
    (init_rewrites_markets_preserves_others 1 rs0 sr0 st0).2 "user:u1:alerts"
      (Val.raw "[]") (by with_unfolding_all decide) (by decide)
      (by with_unfolding_all decide)⟩

set_option maxHeartbeats 4000000 in
set_option maxRecDepth 8000 in
/-- Counterexample to claim C5 as stated: a stale signal record stored
before the init call still holds its old value afterwards, so not every
record is overwritten and a stale signal record survives. -/
theorem init_stale_signal_survives :
    kvGet staleKey (initHandler 1 rs0 sr0 st0).2.2
      = some (Val.signal staleSig) := by
  with_unfolding_all decide

/-- Claim C6: every MarketState built by initializeMockMarkets has its
volatility in [0, 1], and generateActiveSignals, the only other writer,
never touches any binding other than the keys of the signals it stores, so
stored market volatilities are never mutated. -/
theorem market_volatility_in_unit_range :
    (∀ (now : ℤ) (rs : ℕ → MarketRand) (st : Store),
        (∀ i : ℕ, unitIv (rs i).volQ) →
        ∀ m ∈ (initMockMarkets now rs st).1,
          0 ≤ m.volatility ∧ m.volatility ≤ 1) ∧
    (∀ (count : ℕ) (now : ℤ) (ss : ℕ → SigRand) (st : Store) (k : String),
        (∀ s ∈ (generateActiveSignals count now ss st).1, k ≠ "signal:" ++ s.id) →
        kvGet k (generateActiveSignals count now ss st).2 = kvGet k st) := by
  constructor
  · intro now rs st hv m hm
    have hm' : m ∈ mkMarkets now rs := hm
    unfold mkMarkets at hm'
    obtain ⟨i, -, rfl⟩ := List.mem_map.mp hm'
    obtain ⟨h0, h1⟩ := hv i
    exact ⟨h0, le_of_lt h1⟩
  · intro count now ss st k hk
    exact kvGet_foldl_preserve (fun s_ => "signal:" ++ s_.id)
      (fun s_ => Val.signal s_) _ _ _ hk

set_option maxHeartbeats 4000000 in
set_option maxRecDepth 8000 in
/-- Witness for claim C6 at the concrete fixtures. -/
theorem market_volatility_in_unit_range_witness :
    (0 ≤ (mkMarket 0 0 mr0).volatility ∧ (mkMarket 0 0 mr0).volatility ≤ 1) ∧
      kvGet "user:u1:alerts" (generateActiveSignals 1 0 sr0 st1).2
        = kvGet "user:u1:alerts" st1 := by
  have hall : ∀ i : ℕ, unitIv (rs0 i).volQ := by
    intro i
    show unitIv mr0.volQ
    with_unfolding_all decide
  have hmem : mkMarket 0 0 mr0 ∈ mkMarkets 0 rs0 := by
    unfold mkMarkets
    exact List.mem_map_of_mem _ (List.mem_range.mpr (by omega))
  refine ⟨market_volatility_in_unit_range.1 0 rs0 [] hall (mkMarket 0 0 mr0) hmem,
    market_volatility_in_unit_range.2 1 0 sr0 st1 "user:u1:alerts"
      (by with_unfolding_all decide)⟩

/-- The Bool comparator expressed as a proposition. -/
theorem signalLe_eq_true_iff (a b : Signal) :
    signalLe a b = true ↔
      (if a.signalScore = b.signalScore then b.triggeredAt ≤ a.triggeredAt
        else b.signalScore < a.signalScore) := by
  unfold signalLe
  split <;> simp

/-- The signal comparator is transitive. -/
theorem signalLe_trans (a b c : Signal) (h1 : signalLe a b = true)
    (h2 : signalLe b c = true) : signalLe a c = true := by
  rw [signalLe_eq_true_iff] at h1 h2 ⊢
  split_ifs at h1 h2 ⊢ <;> omega

/-- The signal comparator is total. -/
theorem signalLe_total (a b : Signal) :
    (signalLe a b || signalLe b a) = true := by
  simp only [Bool.or_eq_true, signalLe_eq_true_iff]
  split_ifs <;> omega

/-- Claim C9: the GET signals route returns the filtered signals sorted so
that each adjacent pair is in descending score order, ties broken by
descending trigger time. -/
theorem signals_sorted_desc (sport marketType minConfidence : Option String)
    (st : Store) :
    List.Chain'
      (fun a b => a.signalScore > b.signalScore ∨
        (a.signalScore = b.signalScore ∧ a.triggeredAt ≥ b.triggeredAt))
      (getSignalsHandler sport marketType minConfidence st) := by
  have hpw : ∀ l : List Signal,
      List.Pairwise (fun a b => signalLe a b = true) (l.mergeSort signalLe) :=
    fun l => List.sorted_mergeSort signalLe_trans signalLe_total l
  have himp : ∀ a b : Signal, signalLe a b = true →
      a.signalScore > b.signalScore ∨
        (a.signalScore = b.signalScore ∧ a.triggeredAt ≥ b.triggeredAt) := by
    intro a b h
    unfold signalLe at h
    split_ifs at h with hs
    · exact Or.inr ⟨hs, of_decide_eq_true h⟩
    · exact Or.inl (of_decide_eq_true h)
  simp only [getSignalsHandler]
  exact ((hpw _).imp (fun hab => himp _ _ hab)).chain'

/-- Claim C10: the minConfidence filter of the GET signals route selects by
score with inclusive thresholds (75 for high, 55 for medium), not by the
stored confidence field; a signal with score exactly 75, whose confidence
bucket is medium because the bucket uses a strict comparison, is returned
under minConfidence high. -/
theorem minConfidence_filters_by_score (st : Store) (s : Signal)
    (hs : s ∈ storedSignals st) :
    (s ∈ getSignalsHandler none none (some "high") st ↔ 75 ≤ s.signalScore) ∧
    (s ∈ getSignalsHandler none none (some "medium") st ↔ 55 ≤ s.signalScore) ∧
    (s.signalScore = 75 →
      (if 75 < s.signalScore then Level.high
        else if 55 < s.signalScore then Level.medium else Level.low) = Level.medium ∧
      s ∈ getSignalsHandler none none (some "high") st) := by
  have hhigh : getSignalsHandler none none (some "high") st
      = ((storedSignals st).filter
          (fun x => decide ((75:ℤ) ≤ x.signalScore))).mergeSort signalLe := rfl
  have hmed : getSignalsHandler none none (some "medium") st
      = ((storedSignals st).filter
          (fun x => decide ((55:ℤ) ≤ x.signalScore))).mergeSort signalLe := rfl
  have hh : s ∈ getSignalsHandler none none (some "high") st ↔ 75 ≤ s.signalScore := by
    rw [hhigh, List.mem_mergeSort, List.mem_filter]
    simp [hs]
  have hm : s ∈ getSignalsHandler none none (some "medium") st ↔ 55 ≤ s.signalScore := by
    rw [hmed, List.mem_mergeSort, List.mem_filter]
    simp [hs]
  refine ⟨hh, hm, fun h75 => ⟨?_, hh.mpr (by omega)⟩⟩
  rw [if_neg (by omega), if_pos (by omega)]

/-- Witness for claim C10 at the concrete fixtures: the stored signal with
score exactly 75 is classified medium by the bucket thresholds yet is
returned under minConfidence high. -/
theorem minConfidence_filters_by_score_witness :
    (if 75 < sig75.signalScore then Level.high
      else if 55 < sig75.signalScore then Level.medium else Level.low) = Level.medium ∧
      sig75 ∈ getSignalsHandler none none (some "high") st75 := by
  have hs : sig75 ∈ storedSignals st75 := by with_unfolding_all decide
  exact (minConfidence_filters_by_score st75 sig75 hs).2.2 (by with_unfolding_all decide)

end BettingHub
